import Mathlib

/-!
A verification development for the productivity-planner ledger: the task,
goal, daily-entry, achievement and user tables, the streak calculation,
the statistics snapshot, the achievement-award engine, the daily-entry
upsert and the user-deletion sequence, shallowly embedded from
`app.py` / `app_multiuser.py` / `delete_user.py`.

Modelling conventions:
  - Tables are lists of rows; SQL `WHERE` clauses become `List.filter`,
    `INSERT` appends, `DELETE` filters, `UPDATE` maps.
  - Timestamps are modelled at calendar-day granularity as `Int` (days
    since an arbitrary epoch): the only timestamp arithmetic the ledger
    performs is `DATE(completed_at)` extraction, day subtraction and the
    trailing-7-day comparison, all of which are day-level.  `now` (the
    clock read, `CURRENT_TIMESTAMP` / `datetime.now().date()`) is an
    explicit argument of every operation that reads the clock.
  - `SERIAL` row ids of achievements and daily entries are omitted: no
    ledger code path reads them.  Columns no claim or embedded code path
    touches (task description, category, priority, due date, tags,
    estimated hours, goal target date, user password hash and email) are
    omitted for the same reason.
  - The multi-user variant (`app_multiuser.py`) is embedded; `app.py`
    is the same logic with the owner argument fixed, so every theorem
    covers both.
-/

namespace Planner

/-- A row of the tasks table (`init_database`, app_multiuser.py). -/
structure Task where
  id : Nat
  user_id : Nat
  title : String
  status : String
  completed_at : Option Int
deriving Repr, DecidableEq

/-- A row of the goals table. -/
structure Goal where
  id : Nat
  user_id : Nat
  title : String
  progress : Int
  status : String
deriving Repr, DecidableEq

/-- A row of the daily_entries table (UNIQUE(user_id, entry_date)). -/
structure DailyEntry where
  user_id : Nat
  entry_date : Int
  mood : Int
  gratitude : String
  highlights : String
  challenges : String
  tomorrow_goals : String
deriving Repr, DecidableEq

/-- A row of the achievements table. -/
structure Achievement where
  user_id : Nat
  name : String
  description : String
  icon : String
  earned_at : Int
deriving Repr, DecidableEq

/-- A row of the users table. -/
structure User where
  id : Nat
  username : String
  is_admin : Bool
deriving Repr, DecidableEq

/-- The database: the five tables of the multi-user schema. -/
structure State where
  users : List User
  tasks : List Task
  goals : List Goal
  daily_entries : List DailyEntry
  achievements : List Achievement
deriving Repr, DecidableEq

/-- The empty database (fresh `init_database`). -/
def State.empty : State := ⟨[], [], [], [], []⟩

/-- Pandas `Series.unique`: distinct values in order of first occurrence
(applied by `calculate_streak` to the fetched completion-date column). -/
def uniqueFirst : List Int → List Int → List Int
  | [], _ => []
  | x :: rest, seen =>
    if x ∈ seen then uniqueFirst rest seen
    else x :: uniqueFirst rest (x :: seen)

/-- The loop of `calculate_streak` (app_multiuser.py lines 460-472): walk
the distinct completion dates, most recent first, counting a date when it
equals the cursor or the cursor minus one day, then moving the cursor to
the day before the counted date; stop at the first date matching neither. -/
def streakLoop : List Int → Nat → Int → Nat
  | [], streak, _ => streak
  | d :: rest, streak, current =>
    if d = current then streakLoop rest (streak + 1) (current - 1)
    else if d = current - 1 then streakLoop rest (streak + 1) (d - 1)
    else streak

/-- `calculate_streak` on an already-fetched date column: the SQL fetch
returns the completion dates of the owner ordered by `completed_at DESC`;
the function returns 0 on an empty frame and otherwise runs the loop on
the deduplicated column starting at today with streak 0. -/
def calculate_streak (today : Int) (dates : List Int) : Nat :=
  if dates.isEmpty then 0
  else streakLoop (uniqueFirst dates []) 0 today

/-- The date column fetched by `calculate_streak(user_id)`:
`SELECT DATE(completed_at) FROM tasks WHERE user_id = ? AND
status = "completed" ORDER BY completed_at DESC`. -/
def completionDates (user_id : Nat) (s : State) : List Int :=
  ((s.tasks.filter (fun t => t.user_id = user_id ∧ t.status = "completed")).filterMap
      (fun t => t.completed_at)).insertionSort (fun a b => a ≥ b)

/-- `calculate_streak(user_id)` over the database state. -/
def calculate_streak_db (today : Int) (user_id : Nat) (s : State) : Nat :=
  calculate_streak today (completionDates user_id s)

/-- The record returned by `get_productivity_stats`. -/
structure Stats where
  total_tasks : Nat
  completed_tasks : Nat
  week_completed : Nat
  streak : Nat
  active_goals : Nat
  completion_rate : ℚ
deriving Repr, DecidableEq

/-- `get_productivity_stats(user_id)` (app_multiuser.py lines 412-447):
five aggregate queries scoped to the owner plus the streak; the
completion rate is `completed / total * 100` guarded to 0 when the owner
has no tasks.  It only reads the state (a pure function here, matching
the read-only queries of the source). -/
def get_productivity_stats (today : Int) (user_id : Nat) (s : State) : Stats :=
  let total_tasks := (s.tasks.filter (fun t => t.user_id = user_id)).length
  let completed_tasks := (s.tasks.filter
    (fun t => t.user_id = user_id ∧ t.status = "completed")).length
  let week_completed := (s.tasks.filter
    (fun t => t.user_id == user_id && t.status == "completed" &&
      t.completed_at.any (fun d => today - 7 ≤ d))).length
  let streak := calculate_streak_db today user_id s
  let active_goals := (s.goals.filter
    (fun g => g.user_id = user_id ∧ g.status = "active")).length
  { total_tasks := total_tasks
    completed_tasks := completed_tasks
    week_completed := week_completed
    streak := streak
    active_goals := active_goals
    completion_rate :=
      if total_tasks > 0 then (completed_tasks : ℚ) / (total_tasks : ℚ) * 100 else 0 }

/-- A row of the fixed milestone table in `check_achievements`. -/
structure Milestone where
  threshold : Nat
  name : String
  description : String
  icon : String
deriving Repr, DecidableEq

/-- The milestone table of `check_achievements`, in source order. -/
def milestones : List Milestone :=
  [ ⟨5, "First Steps", "Completed 5 tasks", "🌱"⟩,
    ⟨25, "Getting Started", "Completed 25 tasks", "🚀"⟩,
    ⟨50, "Halfway Hero", "Completed 50 tasks", "⭐"⟩,
    ⟨100, "Century Club", "Completed 100 tasks", "💯"⟩,
    ⟨7, "Week Warrior", "7-day streak", "🔥"⟩,
    ⟨30, "Monthly Master", "30-day streak", "👑"⟩ ]

/-- One iteration of the `check_achievements` loop: if no achievement row
exists for (owner, name), insert one when `threshold <= 50` and the
completed-task count reaches it, or else when `threshold > 50` and the
streak reaches it (the numeric split of the source, lines 498-510). -/
def awardStep (now : Int) (user_id : Nat) (stats : Stats) (st : State) (m : Milestone) : State :=
  if (st.achievements.filter
      (fun a => a.user_id = user_id ∧ a.name = m.name)).isEmpty then
    if m.threshold ≤ 50 ∧ stats.completed_tasks ≥ m.threshold then
      { st with achievements :=
          st.achievements ++ [⟨user_id, m.name, m.description, m.icon, now⟩] }
    else if m.threshold > 50 ∧ stats.streak ≥ m.threshold then
      { st with achievements :=
          st.achievements ++ [⟨user_id, m.name, m.description, m.icon, now⟩] }
    else st
  else st

/-- `check_achievements(user_id)` (app_multiuser.py lines 478-513):
compute the stats once, then walk the milestone table in order,
inserting the rows `awardStep` decides on. -/
def check_achievements (now : Int) (user_id : Nat) (s : State) : State :=
  let stats := get_productivity_stats now user_id s
  milestones.foldl (awardStep now user_id stats) s

/-- Effect of the `update_task_status` UPDATE statement on one task row:
when the new status is "completed" the update also sets
`completed_at = CURRENT_TIMESTAMP`; otherwise only the status column is
written (`completed_at` is left as it was). -/
def applyStatusChange (now : Int) (user_id task_id : Nat) (new_status : String)
    (t : Task) : Task :=
  if t.id = task_id ∧ t.user_id = user_id then
    if new_status = "completed" then
      { t with status := new_status, completed_at := some now }
    else
      { t with status := new_status }
  else t

/-- `update_task_status(user_id, task_id, new_status)` (app_multiuser.py
lines 353-370): the row UPDATE scoped by task id and owner, followed by
the `check_achievements(user_id)` call the source makes after commit. -/
def update_task_status (now : Int) (user_id task_id : Nat) (new_status : String)
    (s : State) : State :=
  check_achievements now user_id
    { s with tasks := s.tasks.map (applyStatusChange now user_id task_id new_status) }

/-- One call of `update_task_status`, as data. -/
structure StatusUpdate where
  now : Int
  user_id : Nat
  task_id : Nat
  new_status : String
deriving Repr, DecidableEq

/-- A sequence of `update_task_status` calls applied in order. -/
def applyUpdates (ops : List StatusUpdate) (s : State) : State :=
  ops.foldl (fun st op => update_task_status op.now op.user_id op.task_id op.new_status st) s

/-- `save_daily_entry` (app_multiuser.py lines 525-534):
`INSERT OR REPLACE INTO daily_entries` under `UNIQUE(user_id, entry_date)`
deletes any row conflicting on (user_id, entry_date) and inserts the new
row. -/
def save_daily_entry (user_id : Nat) (entry_date : Int) (mood : Int)
    (gratitude highlights challenges tomorrow_goals : String) (s : State) : State :=
  { s with daily_entries :=
      (s.daily_entries.filter
        (fun e => ¬(e.user_id = user_id ∧ e.entry_date = entry_date))) ++
      [⟨user_id, entry_date, mood, gratitude, highlights, challenges, tomorrow_goals⟩] }

/-- The user-deletion sequence (delete_user.py lines 93-97, and the admin
handler of app_multiuser.py lines 2234-2248): five DELETE statements in
the fixed order achievements, daily_entries, goals, tasks, users. -/
def delete_user (user_id : Nat) (s : State) : State :=
  let s1 := { s with achievements := s.achievements.filter (fun a => ¬a.user_id = user_id) }
  let s2 := { s1 with daily_entries := s1.daily_entries.filter (fun e => ¬e.user_id = user_id) }
  let s3 := { s2 with goals := s2.goals.filter (fun g => ¬g.user_id = user_id) }
  let s4 := { s3 with tasks := s3.tasks.filter (fun t => ¬t.user_id = user_id) }
  { s4 with users := s4.users.filter (fun u => ¬u.id = user_id) }

/-- The streak policy as amended: starting with the cursor at today, a
fetched date continues the chain when it equals the cursor or the day
before the cursor (the one-day grace applies at every step, not only the
first), after which the cursor moves to the day before that date; the
count stops at the first date that matches neither. -/
def graceChainLen : Int → List Int → Nat
  | _, [] => 0
  | cursor, d :: rest =>
    if d = cursor ∨ d = cursor - 1 then 1 + graceChainLen (d - 1) rest
    else 0

/-- Whether an achievement row for (owner, name) exists: the emptiness
test `check_achievements` performs before inserting. -/
def hasAward (user_id : Nat) (name : String) (st : State) : Bool :=
  !(st.achievements.filter (fun a => a.user_id = user_id ∧ a.name = name)).isEmpty

/-- The award condition of one milestone, as the source tests it: the
numeric split sends thresholds up to 50 to the completed-task count and
larger ones to the streak. -/
def awardCond (stats : Stats) (m : Milestone) : Prop :=
  (m.threshold ≤ 50 ∧ stats.completed_tasks ≥ m.threshold) ∨
  (m.threshold > 50 ∧ stats.streak ≥ m.threshold)

/-- Example database: owner 1 has 100 tasks, all completed on day 0. -/
def centuryState : State :=
  { State.empty with
    tasks := (List.range 100).map (fun i => ⟨i, 1, "t", "completed", some 0⟩) }

/-- Example database: owner 1 has one pending task. -/
def pendingState : State :=
  { State.empty with tasks := [⟨1, 1, "t", "pending", none⟩] }

/-- Example database: owner 1 has one task completed on day 3. -/
def completedState : State :=
  { State.empty with tasks := [⟨1, 1, "t", "completed", some 3⟩] }

/-- Example update sequence: complete task 1 on day 5, then revert it to
pending on day 6. -/
def revertOps : List StatusUpdate :=
  [⟨5, 1, 1, "completed"⟩, ⟨6, 1, 1, "pending"⟩]

/- ------------------------------------------------------------------ -/
/- Theorems                                                           -/
/- ------------------------------------------------------------------ -/

/-- One award step leaves every table except achievements untouched. -/
theorem awardStep_tasks_goals (now : Int) (user_id : Nat) (stats : Stats)
    (st : State) (m : Milestone) :
    (awardStep now user_id stats st m).tasks = st.tasks ∧
    (awardStep now user_id stats st m).goals = st.goals := by
  unfold awardStep
  split
  · split
    · exact ⟨rfl, rfl⟩
    · split
      · exact ⟨rfl, rfl⟩
      · exact ⟨rfl, rfl⟩
  · exact ⟨rfl, rfl⟩

/-- One award step only appends to the achievements table. -/
theorem awardStep_achievements_append (now : Int) (user_id : Nat) (stats : Stats)
    (st : State) (m : Milestone) :
    ∃ tl, (awardStep now user_id stats st m).achievements = st.achievements ++ tl := by
  unfold awardStep
  split
  · split
    · exact ⟨_, rfl⟩
    · split
      · exact ⟨_, rfl⟩
      · exact ⟨[], (List.append_nil _).symm⟩
  · exact ⟨[], (List.append_nil _).symm⟩

/-- The milestone fold leaves every table except achievements untouched. -/
theorem foldl_awardStep_tasks_goals (now : Int) (user_id : Nat) (stats : Stats)
    (ms : List Milestone) :
    ∀ st : State,
      (ms.foldl (awardStep now user_id stats) st).tasks = st.tasks ∧
      (ms.foldl (awardStep now user_id stats) st).goals = st.goals := by
  induction ms with
  | nil => intro st; exact ⟨rfl, rfl⟩
  | cons m rest ih =>
    intro st
    have h1 := awardStep_tasks_goals now user_id stats st m
    have h2 := ih (awardStep now user_id stats st m)
    simp only [List.foldl_cons]
    exact ⟨h2.1.trans h1.1, h2.2.trans h1.2⟩

/-- The milestone fold only appends to the achievements table. -/
theorem foldl_awardStep_achievements_append (now : Int) (user_id : Nat) (stats : Stats)
    (ms : List Milestone) :
    ∀ st : State,
      ∃ tl, (ms.foldl (awardStep now user_id stats) st).achievements = st.achievements ++ tl := by
  induction ms with
  | nil => intro st; exact ⟨[], (List.append_nil _).symm⟩
  | cons m rest ih =>
    intro st
    obtain ⟨tl1, h1⟩ := awardStep_achievements_append now user_id stats st m
    obtain ⟨tl2, h2⟩ := ih (awardStep now user_id stats st m)
    exact ⟨tl1 ++ tl2, by simp only [List.foldl_cons, h2, h1, List.append_assoc]⟩

/-- check_achievements never writes the tasks or goals tables. -/
theorem check_achievements_tasks_goals (now : Int) (user_id : Nat) (s : State) :
    (check_achievements now user_id s).tasks = s.tasks ∧
    (check_achievements now user_id s).goals = s.goals :=
  foldl_awardStep_tasks_goals now user_id (get_productivity_stats now user_id s) milestones s

/-- The stats snapshot reads only the tasks and goals tables. -/
theorem get_productivity_stats_congr (today : Int) (user_id : Nat) (s₁ s₂ : State)
    (ht : s₁.tasks = s₂.tasks) (hg : s₁.goals = s₂.goals) :
    get_productivity_stats today user_id s₁ = get_productivity_stats today user_id s₂ := by
  simp only [get_productivity_stats, calculate_streak_db, completionDates, ht, hg]

/-- C8: check_achievements never deletes or modifies an existing
achievement row: for every owner, clock reading and store state, the
achievements table after the call is the table before the call with zero
or more rows appended, so every pre-existing row, with all its fields, is
still present unchanged; no other deletion path exists in the engine. -/
theorem check_achievements_never_removes (now : Int) (user_id : Nat) (s : State) :
    ∃ tl, (check_achievements now user_id s).achievements = s.achievements ++ tl :=
  foldl_awardStep_achievements_append now user_id
    (get_productivity_stats now user_id s) milestones s

/-- Presence of an achievement row survives appending rows. -/
theorem hasAward_of_append (user_id : Nat) (n : String) (st st2 : State)
    (happ : ∃ tl, st2.achievements = st.achievements ++ tl)
    (h : hasAward user_id n st = true) : hasAward user_id n st2 = true := by
  obtain ⟨tl, htl⟩ := happ
  unfold hasAward at h ⊢
  rw [htl, List.filter_append]
  cases hx : st.achievements.filter (fun a => a.user_id = user_id ∧ a.name = n) with
  | nil => rw [hx] at h; simp at h
  | cons a rest => simp

/-- A step whose milestone is either unearned-and-unmet or already
recorded changes nothing. -/
theorem awardStep_fixes (now : Int) (user_id : Nat) (stats : Stats)
    (st : State) (m : Milestone)
    (h : awardCond stats m → hasAward user_id m.name st = true) :
    awardStep now user_id stats st m = st := by
  unfold awardStep
  split
  · rename_i hempty
    have hc : ¬awardCond stats m := by
      intro hcond
      have hh := h hcond
      unfold hasAward at hh
      rw [hempty] at hh
      simp at hh
    split
    · rename_i h1; exact absurd (Or.inl h1) hc
    · split
      · rename_i h2; exact absurd (Or.inr h2) hc
      · rfl
  · rfl

/-- A step whose milestone condition holds leaves the row present. -/
theorem awardStep_establishes (now : Int) (user_id : Nat) (stats : Stats)
    (st : State) (m : Milestone) (hc : awardCond stats m) :
    hasAward user_id m.name (awardStep now user_id stats st m) = true := by
  unfold awardStep
  split
  · split
    · simp [hasAward, List.filter_append]
    · split
      · simp [hasAward, List.filter_append]
      · rename_i h1 h2
        rcases hc with ⟨ha, hb⟩ | ⟨ha, hb⟩
        · exact absurd ⟨ha, hb⟩ h1
        · exact absurd ⟨ha, hb⟩ h2
  · rename_i hne
    unfold hasAward
    simp only [Bool.not_eq_true] at hne
    rw [hne]
    rfl

/-- Folding over milestones all of whose met conditions are already
recorded changes nothing. -/
theorem foldl_awardStep_fixes (now : Int) (user_id : Nat) (stats : Stats)
    (ms : List Milestone) :
    ∀ st : State, (∀ m ∈ ms, awardCond stats m → hasAward user_id m.name st = true) →
      ms.foldl (awardStep now user_id stats) st = st := by
  induction ms with
  | nil => intro st _; rfl
  | cons m rest ih =>
    intro st h
    have h1 : awardStep now user_id stats st m = st :=
      awardStep_fixes now user_id stats st m (h m (List.mem_cons_self m rest))
    simp only [List.foldl_cons, h1]
    exact ih st (fun m' hm' => h m' (List.mem_cons_of_mem m hm'))

/-- After the milestone fold, every milestone of the list whose condition
holds has its row present. -/
theorem foldl_awardStep_establishes (now : Int) (user_id : Nat) (stats : Stats)
    (ms : List Milestone) :
    ∀ st : State, ∀ m ∈ ms, awardCond stats m →
      hasAward user_id m.name (ms.foldl (awardStep now user_id stats) st) = true := by
  induction ms with
  | nil => intro st m hm; simp at hm
  | cons m0 rest ih =>
    intro st m hm hc
    simp only [List.foldl_cons]
    rcases List.mem_cons.mp hm with rfl | hmem
    · exact hasAward_of_append user_id m.name _ _
        (foldl_awardStep_achievements_append now user_id stats rest _)
        (awardStep_establishes now user_id stats st m hc)
    · exact ih (awardStep now user_id stats st m0) m hmem hc

/-- C5: evaluateAchievements is idempotent: with no intervening data
change, a second check_achievements call for the same owner at the same
clock reading returns the store unchanged, so it inserts no achievement
row and in particular never duplicates an (owner, name) row by
re-evaluation. -/
theorem check_achievements_idempotent (now : Int) (user_id : Nat) (s : State) :
    check_achievements now user_id (check_achievements now user_id s) =
      check_achievements now user_id s := by
  have hpres := check_achievements_tasks_goals now user_id s
  have hstats : get_productivity_stats now user_id (check_achievements now user_id s) =
      get_productivity_stats now user_id s :=
    get_productivity_stats_congr now user_id _ _ hpres.1 hpres.2
  have hA : check_achievements now user_id (check_achievements now user_id s) =
      milestones.foldl
        (awardStep now user_id
          (get_productivity_stats now user_id (check_achievements now user_id s)))
        (check_achievements now user_id s) := rfl
  rw [hA, hstats]
  apply foldl_awardStep_fixes
  intro m hm hc
  have hB : check_achievements now user_id s =
      milestones.foldl (awardStep now user_id (get_productivity_stats now user_id s)) s := rfl
  rw [hB]
  exact foldl_awardStep_establishes now user_id _ milestones s m hm hc

/-- The streak loop counts the grace chain: both continuing branches move
the cursor to the day before the counted date, so the loop adds the
length of the longest initial segment in which every date matches the cursor or
the cursor minus one. -/
theorem streakLoop_eq_graceChainLen (l : List Int) :
    ∀ (streak : Nat) (cursor : Int),
      streakLoop l streak cursor = streak + graceChainLen cursor l := by
  induction l with
  | nil => intro streak cursor; simp [streakLoop, graceChainLen]
  | cons d rest ih =>
    intro streak cursor
    by_cases h1 : d = cursor
    · rw [streakLoop, if_pos h1, graceChainLen, if_pos (Or.inl h1), ih]
      subst h1
      omega
    · by_cases h2 : d = cursor - 1
      · rw [streakLoop, if_neg h1, if_pos h2, graceChainLen, if_pos (Or.inr h2), ih]
        omega
      · rw [streakLoop, if_neg h1, if_neg h2, graceChainLen, if_neg (by tauto)]
        omega

/-- C2 (amended): for every today and fetched completion-date column,
calculate_streak equals the grace-chain length over the distinct dates:
the one-day grace applies at EVERY step of the walk, not only to the most
recent completion date, so a fetched date continues the streak whenever
it is one or two days before the previously counted date. -/
theorem calculate_streak_grace_every_step (today : Int) (dates : List Int) :
    calculate_streak today dates = graceChainLen today (uniqueFirst dates []) := by
  unfold calculate_streak
  by_cases h : dates.isEmpty
  · rw [if_pos h]
    cases dates with
    | nil => simp [uniqueFirst, graceChainLen]
    | cons d rest => simp [List.isEmpty] at h
  · rw [if_neg h, streakLoop_eq_graceChainLen]
    omega

/-- C2 (counterexample): completions on exactly today and today minus two
days (today = 0) yield streak 2, not 1 as the claim states: the second
date matches the moved cursor minus one, so the grace branch fires again
after the first counted date. -/
theorem streak_skip_day_counterexample :
    calculate_streak 0 [0, -2] = 2 ∧ calculate_streak 0 [0, -2] ≠ 1 := by
  decide

/-- C4: completed-task dates exactly today minus one and today minus two,
none today, give streak 2: the first date takes the grace branch and the
second matches the advanced cursor exactly. -/
theorem streak_yesterday_pair (today : Int) :
    calculate_streak today [today - 1, today - 2] = 2 := by
  have h1 : ¬(today - 1 = today) := by omega
  have h2 : ¬(today - 2 = today - 1) := by omega
  simp [calculate_streak, uniqueFirst, streakLoop, h1, h2]
  omega

/-- C1 (evaluation at the failing input): owner 1 completes 100 tasks,
all on day 0, so the completed-task count is 100 and the streak is 1.
The milestone table lists Century Club (100) on the completed-task basis
and Week Warrior (7) and Monthly Master (30) on the streak basis, but the
numeric split of check_achievements awards Week Warrior and Monthly
Master (100 completed meets 7 and 30 via the threshold-at-most-50 branch)
and withholds Century Club (streak 1 is below 100, the branch a
threshold above 50 is sent to), contradicting the descriptions the code
itself inserts. -/
theorem check_achievements_numeric_split_bug :
    (get_productivity_stats 0 1 centuryState).completed_tasks = 100 ∧
    (get_productivity_stats 0 1 centuryState).streak = 1 ∧
    (check_achievements 0 1 centuryState).achievements.map (fun a => a.name) =
      ["First Steps", "Getting Started", "Halfway Hero", "Week Warrior", "Monthly Master"] := by
  refine ⟨by decide, by decide, by decide⟩

/-- C6: for an owner with no tasks and no goals, the stats snapshot is
all zeros; in particular the completion rate is 0 by the guarded branch
rather than a division-by-zero error, and the computation is a pure
function of the store (no side effects, always succeeds). -/
theorem stats_zero_owner (today : Int) (user_id : Nat) (s : State)
    (htasks : ∀ t ∈ s.tasks, ¬t.user_id = user_id)
    (hgoals : ∀ g ∈ s.goals, ¬g.user_id = user_id) :
    get_productivity_stats today user_id s =
      { total_tasks := 0, completed_tasks := 0, week_completed := 0,
        streak := 0, active_goals := 0, completion_rate := 0 } := by
  have h1 : s.tasks.filter (fun t => t.user_id = user_id) = [] := by
    rw [List.filter_eq_nil_iff]; intro t ht; simp [htasks t ht]
  have h2 : s.tasks.filter (fun t => t.user_id = user_id ∧ t.status = "completed") = [] := by
    rw [List.filter_eq_nil_iff]; intro t ht; simp [htasks t ht]
  have h3 : s.tasks.filter (fun t => t.user_id == user_id && t.status == "completed" &&
      t.completed_at.any (fun d => today - 7 ≤ d)) = [] := by
    rw [List.filter_eq_nil_iff]; intro t ht; simp [htasks t ht]
  have h4 : s.goals.filter (fun g => g.user_id = user_id ∧ g.status = "active") = [] := by
    rw [List.filter_eq_nil_iff]; intro g hg; simp [hgoals g hg]
  simp only [get_productivity_stats, calculate_streak_db, completionDates, h1, h2, h3, h4]
  simp [calculate_streak]

/-- C6 (witness): the empty database at day 0 for owner 1. -/
theorem stats_zero_owner_witness :
    (∀ t ∈ State.empty.tasks, ¬t.user_id = 1) ∧
    (∀ g ∈ State.empty.goals, ¬g.user_id = 1) ∧
    get_productivity_stats 0 1 State.empty =
      { total_tasks := 0, completed_tasks := 0, week_completed := 0,
        streak := 0, active_goals := 0, completion_rate := 0 } :=
  ⟨by simp [State.empty], by simp [State.empty],
   stats_zero_owner 0 1 State.empty (by simp [State.empty]) (by simp [State.empty])⟩

/-- C7: saving a daily entry for an (owner, date) pair and then re-saving
with different field values leaves exactly one row for that (owner, date)
in the table, and that row carries the latest mood and reflection
values. -/
theorem save_daily_entry_upsert (user_id : Nat) (d m1 m2 : Int)
    (g1 hl1 c1 tg1 g2 hl2 c2 tg2 : String) (s : State) :
    ((save_daily_entry user_id d m2 g2 hl2 c2 tg2
        (save_daily_entry user_id d m1 g1 hl1 c1 tg1 s)).daily_entries.filter
      (fun e => e.user_id = user_id ∧ e.entry_date = d)) =
    [⟨user_id, d, m2, g2, hl2, c2, tg2⟩] := by
  simp [save_daily_entry, List.filter_append, List.filter_filter]

/-- The tasks table after update_task_status: the per-row change mapped
over the table (the trailing check_achievements call writes no task). -/
theorem update_task_status_tasks (now : Int) (user_id task_id : Nat)
    (new_status : String) (s : State) :
    (update_task_status now user_id task_id new_status s).tasks =
      s.tasks.map (applyStatusChange now user_id task_id new_status) :=
  (check_achievements_tasks_goals now user_id
    { s with tasks := s.tasks.map (applyStatusChange now user_id task_id new_status) }).1

/-- The per-row change never touches the id or owner columns. -/
theorem applyStatusChange_id_user (now : Int) (user_id task_id : Nat)
    (new_status : String) (t : Task) :
    (applyStatusChange now user_id task_id new_status t).id = t.id ∧
    (applyStatusChange now user_id task_id new_status t).user_id = t.user_id := by
  unfold applyStatusChange
  split
  · split
    · exact ⟨rfl, rfl⟩
    · exact ⟨rfl, rfl⟩
  · exact ⟨rfl, rfl⟩

/-- When the completion timestamp of a row becomes non-null under one
update: either it already was, or this update targets the row with the
"completed" status (and a non-completed update never clears it). -/
theorem applyStatusChange_completed_at (now : Int) (user_id task_id : Nat)
    (new_status : String) (t : Task) :
    ((applyStatusChange now user_id task_id new_status t).completed_at ≠ none ↔
      (t.completed_at ≠ none ∨
        (task_id = t.id ∧ user_id = t.user_id ∧ new_status = "completed"))) := by
  unfold applyStatusChange
  by_cases hcond : t.id = task_id ∧ t.user_id = user_id
  · rw [if_pos hcond]
    by_cases hst : new_status = "completed"
    · rw [if_pos hst]
      constructor
      · intro _; exact Or.inr ⟨hcond.1.symm, hcond.2.symm, hst⟩
      · intro _; simp
    · rw [if_neg hst]
      constructor
      · intro h; exact Or.inl h
      · intro h
        rcases h with h | ⟨_, _, hc⟩
        · exact h
        · exact absurd hc hst
  · rw [if_neg hcond]
    constructor
    · intro h; exact Or.inl h
    · intro h
      rcases h with h | ⟨h1, h2, _⟩
      · exact h
      · exact absurd ⟨h1.symm, h2.symm⟩ hcond

/-- Accumulated effect of a sequence of update_task_status calls on the
row at position i: id and owner are stable, and the completion timestamp
is non-null exactly when it already was or some call in the sequence set
the status of this row to "completed". -/
theorem applyUpdates_completed_at (ops : List StatusUpdate) :
    ∀ (s : State) (i : Nat) (t t' : Task),
      s.tasks[i]? = some t → (applyUpdates ops s).tasks[i]? = some t' →
      t'.id = t.id ∧ t'.user_id = t.user_id ∧
      (t'.completed_at ≠ none ↔
        (t.completed_at ≠ none ∨ ∃ op ∈ ops,
          op.task_id = t.id ∧ op.user_id = t.user_id ∧ op.new_status = "completed")) := by
  induction ops with
  | nil =>
    intro s i t t' ht ht'
    have hts : (applyUpdates [] s) = s := rfl
    rw [hts, ht] at ht'
    cases ht'
    simp
  | cons op ops ih =>
    intro s i t t' ht ht'
    have hstep : applyUpdates (op :: ops) s =
        applyUpdates ops (update_task_status op.now op.user_id op.task_id op.new_status s) :=
      rfl
    rw [hstep] at ht'
    have h1 : (update_task_status op.now op.user_id op.task_id op.new_status s).tasks[i]? =
        some (applyStatusChange op.now op.user_id op.task_id op.new_status t) := by
      rw [update_task_status_tasks, List.getElem?_map, ht]
      rfl
    obtain ⟨hid, huid, hiff⟩ := ih _ i _ t' h1 ht'
    obtain ⟨hid0, huid0⟩ := applyStatusChange_id_user op.now op.user_id op.task_id op.new_status t
    refine ⟨hid.trans hid0, huid.trans huid0, ?_⟩
    rw [hiff, applyStatusChange_completed_at, hid0, huid0]
    simp only [List.mem_cons]
    constructor
    · rintro (( h | h ) | ⟨op', hop', h⟩)
      · exact Or.inl h
      · exact Or.inr ⟨op, Or.inl rfl, h⟩
      · exact Or.inr ⟨op', Or.inr hop', h⟩
    · rintro (h | ⟨op', hop' | hop', h⟩)
      · exact Or.inl (Or.inl h)
      · subst hop'; exact Or.inl (Or.inr h)
      · exact Or.inr ⟨op', hop', h⟩

/-- C3 (amended): for a task whose completion timestamp starts null,
after any sequence of update_task_status calls the completion timestamp
is non-null if and only if some call in the sequence set the status of this task
status to "completed".  The timestamp is set at the moment of each
transition into "completed" but is NOT cleared when the status reverts:
reverting writes only the status column. -/
theorem completed_at_iff_completing_update (ops : List StatusUpdate) (s : State)
    (i : Nat) (t t' : Task) (ht : s.tasks[i]? = some t)
    (h0 : t.completed_at = none)
    (ht' : (applyUpdates ops s).tasks[i]? = some t') :
    t'.completed_at ≠ none ↔
      ∃ op ∈ ops, op.task_id = t.id ∧ op.user_id = t.user_id ∧
        op.new_status = "completed" := by
  have h := (applyUpdates_completed_at ops s i t t' ht ht').2.2
  rw [h, h0]
  simp

/-- C3 (witness): one pending task, completed on day 5 then reverted on
day 6: the final row has status "pending" and completion timestamp 5,
and the iff of the amended claim holds (a completing call is present). -/
theorem completed_at_iff_completing_update_witness :
    pendingState.tasks[0]? = some ⟨1, 1, "t", "pending", none⟩ ∧
    (applyUpdates revertOps pendingState).tasks[0]? = some ⟨1, 1, "t", "pending", some 5⟩ ∧
    ((some (5 : Int) ≠ none) ↔
      ∃ op ∈ revertOps, op.task_id = 1 ∧ op.user_id = 1 ∧ op.new_status = "completed") :=
  ⟨by decide, by decide,
   completed_at_iff_completing_update revertOps pendingState 0
     ⟨1, 1, "t", "pending", none⟩ ⟨1, 1, "t", "pending", some 5⟩
     (by decide) rfl (by decide)⟩

/-- C3 (counterexample): after completing the pending task on day 5 and
reverting it to "pending" on day 6, the table violates the claimed
invariant: the row has status "pending" but completion timestamp 5,
because the revert does not clear the timestamp. -/
theorem completed_at_invariant_counterexample :
    ((applyUpdates revertOps pendingState).tasks.all
      (fun t => t.completed_at.isSome == (t.status == "completed"))) = false := by
  decide

/-- C10: a "completed" update on a task that is already completed
unconditionally overwrites its completion timestamp with the current
time; the write is not gated on the prior status. -/
theorem update_completed_refreshes_timestamp (now : Int) (user_id task_id : Nat)
    (s : State) (i : Nat) (t : Task) (ht : s.tasks[i]? = some t)
    (hid : t.id = task_id) (huid : t.user_id = user_id) :
    (update_task_status now user_id task_id "completed" s).tasks[i]? =
      some { t with status := "completed", completed_at := some now } := by
  rw [update_task_status_tasks, List.getElem?_map, ht]
  simp [applyStatusChange, hid, huid]

/-- C10 (witness): task 1 of owner 1 already completed at time 3; a
fresh "completed" update at time 7 rewrites the timestamp to 7. -/
theorem update_completed_refreshes_timestamp_witness :
    completedState.tasks[0]? = some ⟨1, 1, "t", "completed", some 3⟩ ∧
    (update_task_status 7 1 1 "completed" completedState).tasks[0]? =
      some ⟨1, 1, "t", "completed", some 7⟩ :=
  ⟨by decide,
   update_completed_refreshes_timestamp 7 1 1 completedState 0
     ⟨1, 1, "t", "completed", some 3⟩ (by decide) rfl rfl⟩

/-- C9: deleting a user removes exactly the achievement, daily-entry,
goal and task rows owned by that user and the user row itself (the five
DELETE statements run in the fixed order achievements, entries, goals,
tasks, user, as sequenced in the definition); every row of another owner
is kept, in order and unchanged. -/
theorem delete_user_cascades (user_id : Nat) (s : State) :
    (delete_user user_id s).achievements =
        s.achievements.filter (fun a => ¬a.user_id = user_id) ∧
    (delete_user user_id s).daily_entries =
        s.daily_entries.filter (fun e => ¬e.user_id = user_id) ∧
    (delete_user user_id s).goals = s.goals.filter (fun g => ¬g.user_id = user_id) ∧
    (delete_user user_id s).tasks = s.tasks.filter (fun t => ¬t.user_id = user_id) ∧
    (delete_user user_id s).users = s.users.filter (fun u => ¬u.id = user_id) :=
  ⟨rfl, rfl, rfl, rfl, rfl⟩

end Planner
